import Mathlib

/-!
A shallow embedding of the go-ctag package (src/ctag/ctag.go): the tag-extraction
walker (getTags / GetTags / GetTagsAndProcess) and the dynamic value-coercion
engine (SetField / setValue and its helpers), together with theorems settling the
frozen claims about them.

Modelling conventions:
* Go runtime values are the inductive GoVal; each value carries enough type
  information (widths, element types, field descriptors) to recover its
  reflect.Type, mirroring how reflect.Value pairs data with a type.
* Machine integers are Int/Nat with explicit two's-complement wrapping
  (wrapInt / wrapUint) where reflect's SetInt / SetUint truncate.
* Go float64/float32 contents are modelled exactly as rationals (GoFloat.fin)
  plus infinities and NaN; binary rounding is idealised away.  The claims under
  study only exercise values (42.9, 30.0, 1..3) whose truncation behaviour is
  unaffected by this idealisation.
* Go's nil interface value is GoVal.vnil; a nil pointer of type *T is
  GoVal.vptrNil T.
* Slices and maps are modelled by their contents; Go distinguishes nil slices
  and maps from empty ones (IsZero is IsNil there) and the model identifies
  the two.  No claim depends on the distinction.
* Struct field exportedness (reflect.StructField.PkgPath being empty) is kept
  as the pkgPath component of a field descriptor rather than being derived from
  the case of the field name.
* In-place mutation is modelled by state passing: each coercion function takes
  the destination's current value and returns the destination's value after the
  call together with an optional error.  A function that fails before writing
  to its destination returns the destination unchanged, exactly as the source
  code leaves the underlying storage untouched; a function that writes before
  failing (setStructFromMap, setPointerValue) returns the partially mutated
  value, again as in the source.
-/

/-- An exact rational as an unnormalised numerator/denominator pair (every
operation in the model constructs these deterministically, so the structural
equality that DecidableEq provides is only ever applied to identically
constructed values; numeric comparisons such as the zero test are done on the
numerator, never structurally). -/
structure GoRat where
  num : Int
  den : Nat
deriving DecidableEq, Repr

/-- Contents of a Go floating-point value: a finite rational, an infinity, or
NaN.  (Finite values are exact rationals; IEEE rounding is idealised away.) -/
inductive GoFloat where
  | fin (q : GoRat)
  | inf (neg : Bool)
  | nan
deriving DecidableEq, Repr

mutual

/-- A Go type as far as the ctag package inspects it via reflect: sized signed
and unsigned integers (w bits; Go's int/uint are w = 64), floats, bool, string,
pointer, slice, struct, string-keyed map and the empty interface. -/
inductive GoType where
  | tint (w : Nat)
  | tuint (w : Nat)
  | tfloat (w : Nat)
  | tbool
  | tstring
  | tptr (elem : GoType)
  | tslice (elem : GoType)
  | tstruct (fields : FieldList)
  | tmap (elem : GoType)
  | tiface
deriving DecidableEq, Repr

/-- The field descriptors of a struct type, in declaration order. -/
inductive FieldList where
  | nil
  | cons (f : GoField) (tl : FieldList)
deriving DecidableEq, Repr

/-- One reflect.StructField: name, PkgPath (nonempty iff unexported),
Anonymous flag, the struct tag as a key/value list, and the field's type. -/
inductive GoField where
  | mk (name : String) (pkgPath : String) (anon : Bool)
      (tags : List (String × String)) (ty : GoType)
deriving DecidableEq, Repr

end

mutual

/-- A Go runtime value as seen through reflect.Value. -/
inductive GoVal where
  | vint (w : Nat) (n : Int)
  | vuint (w : Nat) (n : Nat)
  | vfloat (w : Nat) (x : GoFloat)
  | vbool (b : Bool)
  | vstring (s : String)
  | vptrNil (elem : GoType)
  | vptr (elem : GoType) (pointee : GoVal)
  | vslice (elem : GoType) (elems : ValList)
  | vstruct (fields : FieldList) (vals : ValList)
  | vmap (elem : GoType) (entries : EntryList)
  | vnil
deriving DecidableEq, Repr

/-- A list of Go values (struct field values or slice elements, in order). -/
inductive ValList where
  | nil
  | cons (v : GoVal) (tl : ValList)
deriving DecidableEq, Repr

/-- The entries of a string-keyed Go map. -/
inductive EntryList where
  | nil
  | cons (k : String) (v : GoVal) (tl : EntryList)
deriving DecidableEq, Repr

end

def GoField.name : GoField → String
  | .mk n _ _ _ _ => n

def GoField.pkgPath : GoField → String
  | .mk _ p _ _ _ => p

def GoField.anon : GoField → Bool
  | .mk _ _ a _ _ => a

def GoField.tags : GoField → List (String × String)
  | .mk _ _ _ t _ => t

def GoField.ty : GoField → GoType
  | .mk _ _ _ _ t => t

/-- reflect.StructTag.Get: the value stored under a key, or "" if absent. -/
def tagGet (tags : List (String × String)) (key : String) : String :=
  match tags.lookup key with
  | some v => v
  | none => ""

/-- reflect.Value.Type of a modelled value.  GoVal.vnil (the nil interface)
never reaches a Type call in the modelled code paths; it is mapped to tiface. -/
def typeOf : GoVal → GoType
  | .vint w _ => .tint w
  | .vuint w _ => .tuint w
  | .vfloat w _ => .tfloat w
  | .vbool _ => .tbool
  | .vstring _ => .tstring
  | .vptrNil e => .tptr e
  | .vptr e _ => .tptr e
  | .vslice e _ => .tslice e
  | .vstruct fs _ => .tstruct fs
  | .vmap e _ => .tmap e
  | .vnil => .tiface

/-- Type.AssignableTo in the model: identical types, or assignment to the empty
interface (every type implements interface ⟨⟩, and reflect.ValueOf never yields
an interface-kinded value, so the source type is always concrete). -/
def assignable (src dst : GoType) : Bool :=
  src == dst || dst == .tiface

mutual

/-- reflect.Zero: the zero value of a type. -/
def zeroVal : GoType → GoVal
  | .tint w => .vint w 0
  | .tuint w => .vuint w 0
  | .tfloat w => .vfloat w (.fin ⟨0, 1⟩)
  | .tbool => .vbool false
  | .tstring => .vstring ""
  | .tptr e => .vptrNil e
  | .tslice e => .vslice e .nil
  | .tstruct fs => .vstruct fs (zeroFieldVals fs)
  | .tmap e => .vmap e .nil
  | .tiface => .vnil

/-- Zero values of a struct's fields, in order. -/
def zeroFieldVals : FieldList → ValList
  | .nil => .nil
  | .cons (.mk _ _ _ _ t) tl => .cons (zeroVal t) (zeroFieldVals tl)

end

mutual

/-- reflect.Value.IsZero.  Pointers, maps and slices are zero iff nil (the
model identifies nil slices/maps with empty ones); structs are zero iff every
field is; the nil interface is zero. -/
def isZero : GoVal → Bool
  | .vint _ n => n == 0
  | .vuint _ n => n == 0
  | .vfloat _ x => match x with | .fin r => r.num == 0 | _ => false
  | .vbool b => b == false
  | .vstring s => s == ""
  | .vptrNil _ => true
  | .vptr _ _ => false
  | .vslice _ xs => match xs with | .nil => true | .cons _ _ => false
  | .vstruct _ vs => isZeroList vs
  | .vmap _ es => match es with | .nil => true | .cons _ _ _ => false
  | .vnil => true

def isZeroList : ValList → Bool
  | .nil => true
  | .cons v tl => isZero v && isZeroList tl

end

/-- Whether a pattern (as a character list) occurs at the head of a list. -/
def subAt : List Char → List Char → Bool
  | [], _ => true
  | _ :: _, [] => false
  | p :: ps, c :: cs => p == c && subAt ps cs

/-- Whether a pattern occurs anywhere in a list. -/
def hasSub (pat : List Char) : List Char → Bool
  | [] => subAt pat []
  | c :: cs => subAt pat (c :: cs) || hasSub pat cs

/-- strings.Contains s sub. -/
def goContains (s sub : String) : Bool :=
  hasSub sub.toList s.toList

/-- Leading whitespace characters dropped from a character list. -/
def dropSpace : List Char → List Char
  | [] => []
  | c :: cs => if c.isWhitespace then dropSpace cs else c :: cs

/-- strings.TrimSpace (leading and trailing whitespace removed). -/
def goTrimSpace (s : String) : String :=
  String.mk ((dropSpace ((dropSpace s.toList).reverse)).reverse)

/-- Splitting a character list at every comma (never empty; one more part
than there are commas). -/
def splitCommaCh : List Char → List (List Char)
  | [] => [[]]
  | ',' :: cs => [] :: splitCommaCh cs
  | c :: cs =>
      match splitCommaCh cs with
      | [] => [[c]]
      | p :: ps => (c :: p) :: ps

/-- strings.Split s "," (split on every comma; never empty). -/
def goSplitComma (s : String) : List String :=
  (splitCommaCh s.toList).map String.mk

/-- Decimal digit run: all of 0-9, nonempty. -/
def decDigits : List Char → Option Nat
  | [] => none
  | cs => go cs 0
where go : List Char → Nat → Option Nat
  | [], acc => some acc
  | c :: cs, acc =>
      if c.isDigit then go cs (acc * 10 + (c.toNat - '0'.toNat)) else none

/-- strconv.ParseInt(s, 10, 64): optional sign, then decimal digits, with the
result required to fit in int64 (out-of-range input is an error too). -/
def goParseInt (s : String) : Option Int :=
  let core : List Char → Option Int := fun cs =>
    match cs with
    | '+' :: rest => (decDigits rest).map Int.ofNat
    | '-' :: rest => (decDigits rest).map (fun n => -(Int.ofNat n))
    | rest => (decDigits rest).map Int.ofNat
  match core s.toList with
  | none => none
  | some v => if -(2 ^ 63) ≤ v ∧ v < 2 ^ 63 then some v else none

/-- strconv.ParseUint(s, 10, 64): decimal digits only (no sign permitted),
required to fit in uint64. -/
def goParseUint (s : String) : Option Nat :=
  match decDigits s.toList with
  | none => none
  | some v => if v < 2 ^ 64 then some v else none

/-- Digits with Go's digit-separator underscores: a digit, then digits or
single underscores each followed by a digit.  Returns the digits read. -/
def digitsUnderscore : List Char → Option (List Char)
  | [] => none
  | c :: cs => if c.isDigit then go cs [c] else none
where go : List Char → List Char → Option (List Char)
  | [], acc => some acc.reverse
  | '_' :: c :: cs, acc => if c.isDigit then go cs (c :: acc) else none
  | c :: cs, acc => if c.isDigit then go cs (c :: acc) else none

/-- Largest finite float64 magnitude as an exact integer: (2^53 - 1) * 2^971,
written as a literal so that it evaluates without deep recursion. -/
def maxFloat64 : Int :=
  179769313486231570814527423731704356798070567525844996598917476803157260780028538760589558632766878171540458953514382464234321326889464182768467546703537516986049910576551282076245490090389328944075868508455133942304583236903222948165808559332123348274797826204144723168738177180919299881250404026184124858368

/-- Whether a finite rational exceeds the float64 range in the given
direction (denominators are positive by construction, so the comparison
cross-multiplies). -/
def overMaxFloat (q : GoRat) : Bool :=
  q.num > maxFloat64 * (q.den : Int)

def underMinFloat (q : GoRat) : Bool :=
  q.num < -(maxFloat64 * (q.den : Int))

/-- Numeric value of a decimal digit run. -/
def digitsVal (ds : List Char) : Nat :=
  ds.foldl (fun acc c => acc * 10 + (c.toNat - '0'.toNat)) 0

/-- Value of decimal mantissa digits intPart.fracPart times 10^exp. -/
def decValue (ip fp : List Char) (exp : Int) : GoRat :=
  let mant : Nat := digitsVal ip * 10 ^ fp.length + digitsVal fp
  if exp ≥ 0 then ⟨(mant : Int) * 10 ^ exp.toNat, 10 ^ fp.length⟩
  else ⟨(mant : Int), 10 ^ fp.length * 10 ^ (-exp).toNat⟩

/-- strconv.ParseFloat(s, 64) modelled over exact rationals: optional sign;
"inf" / "infinity" / "nan" case-insensitively; or a decimal literal
digits[.digits][e±digits] / .digits[e±digits], with digit-separator
underscores.  Out-of-range magnitudes are an error (ErrRange), as in the
source.  Omitted relative to strconv: hexadecimal float literals, and the
ErrRange underflow for magnitudes below the smallest denormal; binary
rounding of the mantissa is idealised away.  None of the claims exercises
these corners. -/
def goParseFloat (s : String) : Option GoFloat :=
  let lower := s.toList.map Char.toLower
  if lower == "inf".toList || lower == "+inf".toList ||
      lower == "infinity".toList || lower == "+infinity".toList then
    some (.inf false)
  else if lower == "-inf".toList || lower == "-infinity".toList then
    some (.inf true)
  else if lower == "nan".toList then
    some .nan
  else
    let signed : List Char → Bool × List Char := fun cs =>
      match cs with
      | '+' :: rest => (false, rest)
      | '-' :: rest => (true, rest)
      | rest => (false, rest)
    let (neg, body) := signed s.toList
    let readExp : List Char → Option Int := fun cs =>
      match cs with
      | [] => some 0
      | 'e' :: rest | 'E' :: rest =>
          let (eneg, erest) := signed rest
          match digitsUnderscore erest with
          | some ds =>
              let n : Nat := ds.foldl (fun acc c => acc * 10 + (c.toNat - '0'.toNat)) 0
              some (if eneg then -(n : Int) else (n : Int))
          | none => none
      | _ => none
    let parsed : Option (List Char × List Char × Int) :=
      match body with
      | '.' :: rest =>
          match rest.span (fun c => c.isDigit || c == '_') with
          | (fpRaw, tail) =>
              match digitsUnderscore fpRaw with
              | some fp => (readExp tail).map (fun e => ([], fp, e))
              | none => none
      | _ =>
          match body.span (fun c => c.isDigit || c == '_') with
          | (ipRaw, tail) =>
              match digitsUnderscore ipRaw with
              | some ip =>
                  match tail with
                  | '.' :: rest =>
                      match rest.span (fun c => c.isDigit || c == '_') with
                      | (fpRaw, tail2) =>
                          if fpRaw.isEmpty then
                            (readExp tail2).map (fun e => (ip, [], e))
                          else
                            match digitsUnderscore fpRaw with
                            | some fp => (readExp tail2).map (fun e => (ip, fp, e))
                            | none => none
                  | _ => (readExp tail).map (fun e => (ip, [], e))
              | none => none
    match parsed with
    | none => none
    | some (ip, fp, e) =>
        let q0 := decValue ip fp e
        let q := if neg then GoRat.mk (-q0.num) q0.den else q0
        if overMaxFloat q then some (.inf false)
        else if underMinFloat q then some (.inf true)
        else some (.fin q)

/-- strconv.ParseBool: the exact literal set it accepts. -/
def goParseBool (s : String) : Option Bool :=
  if s == "1" || s == "t" || s == "T" || s == "TRUE" || s == "true" || s == "True" then
    some true
  else if s == "0" || s == "f" || s == "F" || s == "FALSE" || s == "false" || s == "False" then
    some false
  else none

/-- Two's-complement wrap of an integer to w bits (what reflect.Value.SetInt
does when storing an int64 into a narrower signed field). -/
def wrapInt (w : Nat) (v : Int) : Int :=
  (v + 2 ^ (w - 1)) % 2 ^ w - 2 ^ (w - 1)

/-- Wrap of an integer to w unsigned bits (reflect.Value.SetUint storage). -/
def wrapUint (w : Nat) (v : Int) : Nat :=
  (v % (2 ^ w : Int)).toNat

/-- Go's uint64 → int64 conversion (two's-complement reinterpretation). -/
def toSigned64 (u : Nat) : Int :=
  wrapInt 64 (u : Int)

/-- Truncation of a rational toward zero (the rounding Go uses for
float → integer conversion); Int.tdiv is truncated division. -/
def ratTrunc (q : GoRat) : Int :=
  q.num.tdiv (q.den : Int)

/-- Go's float64 → int64 conversion.  In range it truncates toward zero; for
NaN, infinities and out-of-range magnitudes the Go spec leaves the result
implementation-defined, and the model fixes the amd64 outcome (minInt64). -/
def goFloatToInt64 : GoFloat → Int
  | .fin q =>
      let t := ratTrunc q
      if -(2 ^ 63) ≤ t ∧ t < 2 ^ 63 then t else -(2 ^ 63)
  | .inf _ => -(2 ^ 63)
  | .nan => -(2 ^ 63)

/-- Go's float64 → uint64 conversion: truncation toward zero wrapped to 64
bits for finite values (implementation-defined outside [0, 2^64); the wrap
matches amd64 for negatives); an arbitrary fixed value for Inf/NaN. -/
def goFloatToUint64 : GoFloat → Nat
  | .fin q => wrapUint 64 (ratTrunc q)
  | .inf _ => 2 ^ 63
  | .nan => 2 ^ 63

/-- isNumeric from the source: signed, unsigned and float kinds. -/
def isNumericKind : GoType → Bool
  | .tint _ => true
  | .tuint _ => true
  | .tfloat _ => true
  | _ => false

/-- The error taxonomy of the package, one constructor per distinct error
construction site in the source. -/
inductive GoErr where
  | notPointer (ty : GoType)
  | nilPointer
  | cannotConvert (src dst : GoType)
  | parseErr (kind : String) (text : String)
  | sliceElem (i : Nat) (e : GoErr)
  | fieldErr (name : String) (e : GoErr)
  | unsupportedNumeric (ty : GoType)
  | convertString (dst : GoType)
  | notStruct (ty : GoType)
  | procErr (e : GoErr)
  | userErr (msg : String)
  | outOfFuel
deriving DecidableEq, Repr

mutual

/-- fmt.Sprintf with the %v verb, as used by the String destination case of
setValue.  Numeric, boolean and string formatting is exact; aggregate and
float formatting is an approximation (no claim exercises this path beyond
scalars). -/
def goFormat : GoVal → String
  | .vint _ n => toString n
  | .vuint _ n => toString n
  | .vfloat _ x =>
      match x with
      | .fin q => if q.den == 1 then toString q.num else toString q.num ++ "/" ++ toString q.den
      | .inf neg => if neg then "-Inf" else "+Inf"
      | .nan => "NaN"
  | .vbool b => if b then "true" else "false"
  | .vstring s => s
  | .vptrNil _ => "<nil>"
  | .vptr _ q => "&" ++ goFormat q
  | .vslice _ xs => "[" ++ goFormatList xs ++ "]"
  | .vstruct _ vs => "\x7b" ++ goFormatList vs ++ "\x7d"
  | .vmap _ es => "map[" ++ goFormatEntries es ++ "]"
  | .vnil => "<nil>"

def goFormatList : ValList → String
  | .nil => ""
  | .cons v .nil => goFormat v
  | .cons v tl => goFormat v ++ " " ++ goFormatList tl

def goFormatEntries : EntryList → String
  | .nil => ""
  | .cons k v .nil => k ++ ":" ++ goFormat v
  | .cons k v tl => k ++ ":" ++ goFormat v ++ " " ++ goFormatEntries tl

end

/-- First value stored under a key in a map's entries (Go map keys are
unique, so first match is the match). -/
def lookupEntry : EntryList → String → Option GoVal
  | .nil, _ => none
  | .cons k v tl, key => if k == key then some v else lookupEntry tl key

def listToValList : List GoVal → ValList
  | [] => .nil
  | v :: tl => .cons v (listToValList tl)

/-- The state-passing shape of one coercion call: destination value before the
call in, (destination value after the call, optional error) out. -/
abbrev SetRes := GoVal × Option GoErr

/-- The type of the recursive setValue call threaded through the helpers. -/
abbrev Rec := GoVal → GoVal → SetRes

/-- setFromString: parse a string into a primitive destination; on parse
failure the destination is left untouched and a parse error naming the
attempted kind and the offending text is returned. -/
def setFromString (dest : GoVal) (str : String) : SetRes :=
  match dest with
  | .vstring _ => (.vstring str, none)
  | .vint w _ =>
      match goParseInt str with
      | some v => (.vint w (wrapInt w v), none)
      | none => (dest, some (.parseErr "int" str))
  | .vuint w _ =>
      match goParseUint str with
      | some v => (.vuint w (wrapUint w (v : Int)), none)
      | none => (dest, some (.parseErr "uint" str))
  | .vfloat w _ =>
      match goParseFloat str with
      | some x => (.vfloat w x, none)
      | none => (dest, some (.parseErr "float" str))
  | .vbool _ =>
      match goParseBool str with
      | some b => (.vbool b, none)
      | none => (dest, some (.parseErr "bool" str))
  | _ => (dest, some (.convertString (typeOf dest)))

/-- setNumericValue: unchecked truncating conversions between the numeric
families, stored with reflect's silent width truncation. -/
def setNumericValue (dest src : GoVal) : SetRes :=
  match dest with
  | .vint w _ =>
      match src with
      | .vint _ v => (.vint w (wrapInt w v), none)
      | .vuint _ u => (.vint w (wrapInt w (toSigned64 u)), none)
      | .vfloat _ x => (.vint w (wrapInt w (goFloatToInt64 x)), none)
      | _ => (dest, some (.cannotConvert (typeOf src) (typeOf dest)))
  | .vuint w _ =>
      match src with
      | .vint _ v => (.vuint w (wrapUint w v), none)
      | .vuint _ u => (.vuint w (wrapUint w (u : Int)), none)
      | .vfloat _ x => (.vuint w (wrapUint w (goFloatToUint64 x : Int)), none)
      | _ => (dest, some (.cannotConvert (typeOf src) (typeOf dest)))
  | .vfloat w _ =>
      match src with
      | .vint _ v => (.vfloat w (.fin ⟨v, 1⟩), none)
      | .vuint _ u => (.vfloat w (.fin ⟨(u : Int), 1⟩), none)
      | .vfloat _ x => (.vfloat w x, none)
      | _ => (dest, some (.cannotConvert (typeOf src) (typeOf dest)))
  | _ => (dest, some (.unsupportedNumeric (typeOf dest)))

/-- The element-building loop of setSliceFromString / setSliceFromSlice over
already-trimmed-and-split string parts: each part is coerced into a fresh zero
element of the element type; the first failure aborts with the element index
wrapped around the cause. -/
def buildSliceElems (rec : Rec) (e : GoType) : Nat → List String → List GoVal × Option GoErr
  | _, [] => ([], none)
  | i, p :: ps =>
      match rec (zeroVal e) (.vstring p) with
      | (v, none) =>
          let (vs, err) := buildSliceElems rec e (i + 1) ps
          (v :: vs, err)
      | (_, some err) => ([], some (.sliceElem i err))

/-- setSliceFromString: "" yields a fresh empty slice; otherwise split on
commas, trim each part, coerce each part in order into a fresh element, and
assign the newly built slice only after every element succeeded, so a failure
leaves the destination exactly as it was. -/
def setSliceFromString (rec : Rec) (dest : GoVal) (e : GoType) (str : String) : SetRes :=
  if str == "" then (.vslice e .nil, none)
  else
    let parts := (goSplitComma str).map goTrimSpace
    match buildSliceElems rec e 0 parts with
    | (vs, none) => (.vslice e (listToValList vs), none)
    | (_, some err) => (dest, some err)

/-- The element loop of setSliceFromSlice: each source element is coerced into
a fresh zero element of the destination element type (SetField on the
just-allocated, addressable element), first failure wins, index wrapped. -/
def buildSliceFromVals (rec : Rec) (e : GoType) : Nat → ValList → List GoVal × Option GoErr
  | _, .nil => ([], none)
  | i, .cons sv tl =>
      match rec (zeroVal e) sv with
      | (v, none) =>
          let (vs, err) := buildSliceFromVals rec e (i + 1) tl
          (v :: vs, err)
      | (_, some err) => ([], some (.sliceElem i err))

/-- setSliceFromSlice: empty source yields a fresh empty slice; otherwise a
new slice of matching length is built element by element and assigned to the
destination only after every element succeeded. -/
def setSliceFromSlice (rec : Rec) (dest : GoVal) (e : GoType) (src : ValList) : SetRes :=
  match src with
  | .nil => (.vslice e .nil, none)
  | _ =>
      match buildSliceFromVals rec e 0 src with
      | (vs, none) => (.vslice e (listToValList vs), none)
      | (_, some err) => (dest, some err)

/-- setSliceValue: direct assignment if types match; strings split; slices
converted elementwise; a single value assignable to the element type is
wrapped into a one-element slice; anything else fails. -/
def setSliceValue (rec : Rec) (dest : GoVal) (e : GoType) (value : GoVal) : SetRes :=
  if assignable (typeOf value) (.tslice e) then (value, none)
  else
    match value with
    | .vstring s => setSliceFromString rec dest e s
    | .vslice _ src => setSliceFromSlice rec dest e src
    | _ =>
        if assignable (typeOf value) e then
          (.vslice e (.cons value .nil), none)
        else (dest, some (.cannotConvert (typeOf value) (.tslice e)))

/-- The per-field tag name used by setStructFromMap: the first comma-separated
part of the json tag if the tag is present with a nonempty name, else the
declared field name. -/
def structTagName (f : GoField) (jsonTag : String) : String :=
  if jsonTag ≠ "" then
    match goSplitComma jsonTag with
    | p :: _ => if p ≠ "" then p else f.name
    | [] => f.name
  else f.name

/-- One iteration of the setStructFromMap field loop: unexported fields and
fields whose whole json tag is exactly "-" are left untouched; otherwise the
map is consulted under the tag name and then, if that misses and the tag name
differs from the declared name, under the declared name; a found value is
coerced into the field, errors wrapped with the field name. -/
def structFieldStep (rec : Rec) (f : GoField) (x : GoVal) (es : EntryList) :
    GoVal × Option GoErr :=
  if f.pkgPath ≠ "" then (x, none)
  else
    let jsonTag := tagGet f.tags "json"
    if jsonTag == "-" then (x, none)
    else
      let tagName := structTagName f jsonTag
      let found : Option GoVal :=
        match lookupEntry es tagName with
        | some v => some v
        | none => if tagName ≠ f.name then lookupEntry es f.name else none
      match found with
      | none => (x, none)
      | some mv =>
          match rec x mv with
          | (xv, none) => (xv, none)
          | (xv, some e) => (xv, some (.fieldErr f.name e))

/-- setStructFromMap: construct the struct field by field, first failure
aborting the loop (wrapped with the field name) and leaving the remaining
fields as they were - earlier fields keep the values already written into
them, since the loop mutates the destination in place through SetField on
each field's address. -/
def setStructFromMap (rec : Rec) : FieldList → ValList → EntryList → ValList × Option GoErr
  | .nil, vs, _ => (vs, none)
  | .cons _ _, .nil, _ => (.nil, none)
  | .cons f fs, .cons x xs, es =>
      match structFieldStep rec f x es with
      | (xv, none) =>
          let r := setStructFromMap rec fs xs es
          (.cons xv r.1, r.2)
      | (xv, some e) => (.cons xv xs, some e)

/-- setStructValue: direct assignment for an identical struct type, struct
construction for a string-keyed map, error otherwise. -/
def setStructValue (rec : Rec) (dest : GoVal) (value : GoVal) : SetRes :=
  if assignable (typeOf value) (typeOf dest) then (value, none)
  else
    match dest, value with
    | .vstruct fs vs, .vmap _ es =>
        let (vs2, err) := setStructFromMap rec fs vs es
        (.vstruct fs vs2, err)
    | _, _ => (dest, some (.cannotConvert (typeOf value) (typeOf dest)))

/-- setPointerValue: a nil destination pointer is replaced by a fresh
allocation before the pointee is coerced (so the allocation survives even a
failing coercion, as in the source); a non-nil pointer has its pointee coerced
in place. -/
def setPointerValue (rec : Rec) (e : GoType) (p : Option GoVal) (value : GoVal) : SetRes :=
  match p with
  | none =>
      let (q, err) := rec (zeroVal e) value
      (.vptr e q, err)
  | some q =>
      let (q2, err) := rec q value
      (.vptr e q2, err)

/-- One unfolding of setValue: the dispatch order of the source (nil check,
direct assignability, destination-kind switch, string source, numeric pair,
failure).  Interface-typed fields currently holding a non-nil value are not
distinguishable from their contents in this value model; no claim depends on
them. -/
def setValueAux (rec : Rec) (dest value : GoVal) : SetRes :=
  if value == .vnil then (zeroVal (typeOf dest), none)
  else if assignable (typeOf value) (typeOf dest) then (value, none)
  else
    match dest with
    | .vptrNil e => setPointerValue rec e none value
    | .vptr e q => setPointerValue rec e (some q) value
    | .vnil => (value, none)
    | .vstruct _ _ => setStructValue rec dest value
    | .vslice e _ => setSliceValue rec dest e value
    | .vmap _ _ => (dest, some (.cannotConvert (typeOf value) (typeOf dest)))
    | .vstring _ => (.vstring (goFormat value), none)
    | _ =>
        match value with
        | .vstring s => setFromString dest s
        | _ =>
            if isNumericKind (typeOf value) && isNumericKind (typeOf dest) then
              setNumericValue dest value
            else (dest, some (.cannotConvert (typeOf value) (typeOf dest)))

/-- setValue with a recursion budget.  The source recursion descends through
the destination type at every recursive call, so every run of the original
terminates; the fuel makes the model total, and every claim is settled either
uniformly in the recursion budget or at an explicit sufficient budget. -/
def setValueFuel : Nat → GoVal → GoVal → SetRes
  | 0, dest, _ => (dest, some .outOfFuel)
  | n + 1, dest, value => setValueAux (setValueFuel n) dest value

/-- SetField: the exported entry point of the coercion engine.  The
destination must be a non-nil pointer; its pointee (always settable, being
reached through a pointer) receives the value. -/
def SetFieldGo (fuel : Nat) (field value : GoVal) : SetRes :=
  match field with
  | .vptrNil _ => (field, some .nilPointer)
  | .vptr e p =>
      let (p2, err) := setValueFuel fuel p value
      (.vptr e p2, err)
  | _ => (field, some (.notPointer (typeOf field)))

instance {ε α : Type} [DecidableEq ε] [DecidableEq α] : DecidableEq (Except ε α) := fun x y =>
  match x, y with
  | .ok a, .ok b =>
      if h : a = b then .isTrue (by rw [h])
      else .isFalse (by intro hc; cases hc; exact h rfl)
  | .ok _, .error _ => .isFalse (by intro hc; cases hc)
  | .error _, .ok _ => .isFalse (by intro hc; cases hc)
  | .error a, .error b =>
      if h : a = b then .isTrue (by rw [h])
      else .isFalse (by intro hc; cases hc; exact h rfl)

/-- One extracted tag (the source's CTag).  Field is the type-erased snapshot
of the field's value; GoVal.vnil models the nil interface left in place when
the field was a nil pointer (parse's IsValid guard). -/
structure CTag where
  Key : String
  Name : String
  Options : List String
  Field : GoVal
deriving DecidableEq, Repr

/-- parse: Name is the text before the first comma, Options the remaining
comma-separated tokens; Field is reflect.Indirect of the field value (one
dereference; a nil pointer leaves the nil interface). -/
def parseTag (key : String) (tagStr : String) (fv : GoVal) : CTag :=
  let fld : GoVal :=
    match fv with
    | .vptrNil _ => .vnil
    | .vptr _ q => q
    | v => v
  match goSplitComma tagStr with
  | [] => { Key := key, Name := "", Options := [], Field := fld }
  | n :: opts => { Key := key, Name := n, Options := opts, Field := fld }

/-- The pointer-following loop of getTags: dereference non-nil pointers,
stop at a nil pointer. -/
def derefPtrs : GoVal → GoVal
  | .vptr _ q => derefPtrs q
  | v => v

def isStructVal : GoVal → Bool
  | .vstruct _ _ => true
  | _ => false

def isPtrVal : GoVal → Bool
  | .vptr _ _ => true
  | _ => false

/-- Struct fields paired with their values, in declaration order. -/
def zipFields : FieldList → ValList → List (GoField × GoVal)
  | .nil, _ => []
  | .cons _ _, .nil => []
  | .cons f fs, .cons x xs => (f, x) :: zipFields fs xs

/-- One getTags loop iteration for one field, in the nil-processor
specialisation: the entries this field contributes to the running tag list
(its own entry followed by the entries of a nested struct walk) and the
values it queues for the embedded pass. -/
def fieldStep (rec : GoVal → List CTag) (key : String) (f : GoField) (x : GoVal) :
    List CTag × List GoVal :=
  if f.pkgPath ≠ "" && !f.anon then ([], [])
  else
    let fv := derefPtrs x
    let tagStr := tagGet f.tags key
    if tagStr == "-" || (goContains tagStr "omitempty" && isZero fv) then ([], [])
    else if f.anon then
      if isStructVal fv then ([], [fv]) else ([], [])
    else
      let own := if tagStr ≠ "" then [parseTag key tagStr fv] else []
      let nested := if isStructVal fv then rec fv else []
      (own ++ nested, [])

/-- The field loop of getTags (nil processor): concatenation of the per-field
contributions, keeping the embedded queue in declaration order. -/
def fieldsWalk (rec : GoVal → List CTag) (key : String) :
    List (GoField × GoVal) → List CTag × List GoVal
  | [] => ([], [])
  | (f, x) :: rest =>
      let (ts, es) := fieldStep rec key f x
      let (ts2, es2) := fieldsWalk rec key rest
      (ts ++ ts2, es ++ es2)

/-- getTags with a nil processor (the GetTags path).  With no processor the
source has no error path, and the walk is a pure function of the value.  The
fuel bounds the nesting depth only; the source recursion descends the finite
field graph of the value and terminates on every acyclic input. -/
def getTagsNP : Nat → String → GoVal → List CTag
  | 0, _, _ => []
  | fuel + 1, key, v =>
    match v with
    | .vstruct fs vs =>
        let (ts, emb) := fieldsWalk (getTagsNP fuel key) key (zipFields fs vs)
        ts ++ (emb.map (getTagsNP fuel key)).flatten
    | _ => []

/-- GetTags / GetTagsAndProcess input handling with a nil processor:
reflect.Indirect the argument (one dereference), require a struct, walk. -/
def GetTagsModel (fuel : Nat) (key : String) (data : GoVal) : Except GoErr (List CTag) :=
  match data with
  | .vptr _ q =>
      if isStructVal q then .ok (getTagsNP fuel key q)
      else .error (.notStruct (typeOf data))
  | .vptrNil _ => .error (.notStruct (typeOf data))
  | d =>
      if isStructVal d then .ok (getTagsNP fuel key d)
      else .error (.notStruct (typeOf d))

/-- A caller-supplied TagProcessor.  Process(field, tag) receives the field
(the handle's pointed-to storage when the walker can pass a handle, the
snapshot value otherwise) and the parsed entry; mutation of the field storage
and of the entry are modelled by the returned pair. -/
abbrev ProcessorM := GoVal → CTag → Except GoErr (GoVal × CTag)

/-- Write a recursive walk's result back through the pointers the walker
dereferenced to reach it (the walker's reflect.Values alias the original
storage, so mutation inside a nested walk lands in the outer field). -/
def rewrap : GoVal → GoVal → GoVal
  | .vptr e q, u => .vptr e (rewrap q u)
  | _, u => u

/-- One getTags loop iteration for one field in the full model: the entries
contributed, the field's stored value after any processor or nested-walk
mutation, and the embedded value this field queues (with the addressability
the embedded walk will run under).  addr says whether the surrounding struct
is addressable (v.Field(i).CanSet() for exported fields); a field reached
through a pointer dereference is addressable regardless. -/
def fieldStepP (rec : GoVal → Bool → Except GoErr (List CTag × GoVal))
    (p : Option ProcessorM) (key : String) (addr : Bool) (f : GoField) (x : GoVal) :
    Except GoErr (List CTag × GoVal × Option (GoVal × Bool)) :=
  if f.pkgPath ≠ "" && !f.anon then .ok ([], x, none)
  else
    let fv := derefPtrs x
    let went := isPtrVal x
    let tagStr := tagGet f.tags key
    if tagStr == "-" || (goContains tagStr "omitempty" && isZero fv) then .ok ([], x, none)
    else if f.anon then
      (if isStructVal fv then .ok ([], x, some (fv, addr || went)) else .ok ([], x, none))
    else do
      let step1 : List CTag × GoVal ←
        (if tagStr ≠ "" then
          let tag := parseTag key tagStr fv
          match p with
          | none => .ok ([tag], x)
          | some proc =>
              if addr then
                match proc x tag with
                | .error e => .error (.procErr e)
                | .ok (newField, tag2) => .ok ([{ tag2 with Field := newField }], newField)
              else
                match proc tag.Field tag with
                | .error e => .error (.procErr e)
                | .ok (_, tag2) => .ok ([tag2], x)
        else .ok ([], x))
      let entries1 := step1.1
      let x1 := step1.2
      let fv1 := derefPtrs x1
      if isStructVal fv1 then do
        let nested ← rec fv1 (addr || isPtrVal x1)
        .ok (entries1 ++ nested.1, rewrap x1 nested.2, none)
      else
        .ok (entries1, x1, none)

/-- The field loop of getTags in the full model, with the loop index carried
for embedded write-back. -/
def fieldsWalkP (rec : GoVal → Bool → Except GoErr (List CTag × GoVal))
    (p : Option ProcessorM) (key : String) (addr : Bool) :
    Nat → List (GoField × GoVal) → Except GoErr (List CTag × List GoVal × List (Nat × GoVal × Bool))
  | _, [] => .ok ([], [], [])
  | idx, (f, x) :: rest => do
      let here ← fieldStepP rec p key addr f x
      let later ← fieldsWalkP rec p key addr (idx + 1) rest
      let embHere := match here.2.2 with | some (v, a) => [(idx, v, a)] | none => []
      .ok (here.1 ++ later.1, here.2.1 :: later.2.1, embHere ++ later.2.2)

/-- Replace the field value at an index by the embedded walk's result,
rewrapped through the pointers that were dereferenced to reach it. -/
def updateFieldAt : Nat → GoVal → List GoVal → List GoVal
  | _, _, [] => []
  | 0, u, x :: xs => rewrap x u :: xs
  | n + 1, u, x :: xs => x :: updateFieldAt n u xs

/-- The embedded pass of getTags: walk each queued embedded value in order,
appending its entries and writing its (possibly mutated) value back into the
owning field. -/
def embWalkP (rec : GoVal → Bool → Except GoErr (List CTag × GoVal)) :
    List (Nat × GoVal × Bool) → List GoVal → Except GoErr (List CTag × List GoVal)
  | [], xs => .ok ([], xs)
  | (i, v, a) :: rest, xs => do
      let sub ← rec v a
      let xs1 := updateFieldAt i sub.2 xs
      let later ← embWalkP rec rest xs1
      .ok (sub.1 ++ later.1, later.2)

/-- getTags in the full model: field loop, then embedded pass; returns the
entries and the struct value after all processor mutations. -/
def getTagsP : Nat → String → Option ProcessorM → GoVal → Bool → Except GoErr (List CTag × GoVal)
  | 0, _, _, _, _ => .error .outOfFuel
  | fuel + 1, key, p, v, addr =>
    match v with
    | .vstruct fs vs => do
        let looped ← fieldsWalkP (fun w a => getTagsP fuel key p w a) p key addr 0 (zipFields fs vs)
        let embedded ← embWalkP (fun w a => getTagsP fuel key p w a) looped.2.2 looped.2.1
        .ok (looped.1 ++ embedded.1, .vstruct fs (listToValList embedded.2))
    | w => .ok ([], w)

/-- GetTagsAndProcess: reflect.Indirect the input (one dereference; the
dereferenced storage is addressable, a plain struct argument is not), require
a struct, walk with the processor.  The returned value is the input after all
processor mutations (in the source those land in caller storage through the
handles). -/
def GetTagsAndProcessModel (fuel : Nat) (key : String) (data : GoVal)
    (p : Option ProcessorM) : Except GoErr (List CTag × GoVal) :=
  match data with
  | .vptr e q =>
      if isStructVal q then
        match getTagsP fuel key p q true with
        | .ok (ts, q2) => .ok (ts, .vptr e q2)
        | .error e2 => .error e2
      else .error (.notStruct (.tptr e))
  | .vptrNil e => .error (.notStruct (.tptr e))
  | d =>
      if isStructVal d then getTagsP fuel key p d false
      else .error (.notStruct (typeOf d))

def lenF : FieldList → Nat
  | .nil => 0
  | .cons _ tl => lenF tl + 1

def lenV : ValList → Nat
  | .nil => 0
  | .cons _ tl => lenV tl + 1

/-- When every part coerces, the element loop returns exactly the coercion
results in order, with no error. -/
theorem buildSliceElems_ok (rec : Rec) (e : GoType) (i : Nat) (ps : List String)
    (h : ∀ p ∈ ps, (rec (zeroVal e) (.vstring p)).2 = none) :
    buildSliceElems rec e i ps =
      (ps.map (fun p => (rec (zeroVal e) (.vstring p)).1), none) := by
  induction ps generalizing i with
  | nil => simp [buildSliceElems]
  | cons p ps ih =>
      have hp : (rec (zeroVal e) (.vstring p)).2 = none := h p (List.mem_cons_self p ps)
      have hr := ih (i + 1) (fun q hq => h q (List.mem_cons_of_mem p hq))
      cases hv : rec (zeroVal e) (.vstring p) with
      | mk v o =>
          cases o with
          | none => simp [buildSliceElems, hv, hr]
          | some e2 => rw [hv] at hp; simp at hp

/-- Every error the element loop produces is wrapped with an element index. -/
theorem buildSliceElems_err_shape (rec : Rec) (e : GoType) (i : Nat) (ps : List String)
    (err : GoErr) (h : (buildSliceElems rec e i ps).2 = some err) :
    ∃ j e2, err = .sliceElem j e2 := by
  induction ps generalizing i with
  | nil => simp [buildSliceElems] at h
  | cons p ps ih =>
      cases hv : rec (zeroVal e) (.vstring p) with
      | mk v o =>
          cases o with
          | none =>
              cases hb : buildSliceElems rec e (i + 1) ps with
              | mk vs err2 =>
                  simp only [buildSliceElems, hv, hb] at h
                  exact ih (i + 1) (by rw [hb]; exact h)
          | some e2 =>
              simp only [buildSliceElems, hv, Option.some.injEq] at h
              exact ⟨i, e2, h.symm⟩

/-- A failing setSliceFromString leaves the destination untouched: the new
slice is only assigned after the whole element loop has succeeded. -/
theorem setSliceFromString_err_unchanged (rec : Rec) (dest : GoVal) (e : GoType)
    (s : String) (h : (setSliceFromString rec dest e s).2.isSome = true) :
    (setSliceFromString rec dest e s).1 = dest := by
  by_cases hs : (s == "") = true
  · simp [setSliceFromString, hs] at h
  · cases hb : buildSliceElems rec e 0 ((goSplitComma s).map goTrimSpace) with
    | mk vs o =>
        cases o with
        | none => simp [setSliceFromString, hs, hb] at h
        | some err => simp [setSliceFromString, hs, hb]

/-- A failing setSliceFromSlice leaves the destination untouched, for the
same reason. -/
theorem setSliceFromSlice_err_unchanged (rec : Rec) (dest : GoVal) (e : GoType)
    (src : ValList) (h : (setSliceFromSlice rec dest e src).2.isSome = true) :
    (setSliceFromSlice rec dest e src).1 = dest := by
  cases src with
  | nil => simp [setSliceFromSlice] at h
  | cons sv tl =>
      cases hb : buildSliceFromVals rec e 0 (.cons sv tl) with
      | mk vs o =>
          cases o with
          | none => simp [setSliceFromSlice, hb] at h
          | some err => simp [setSliceFromSlice, hb]

/-- A failing setSliceValue leaves the destination untouched, whatever the
source value was. -/
theorem setSliceValue_err_unchanged (rec : Rec) (dest : GoVal) (e : GoType)
    (value : GoVal) (h : (setSliceValue rec dest e value).2.isSome = true) :
    (setSliceValue rec dest e value).1 = dest := by
  by_cases ha : (assignable (typeOf value) (.tslice e)) = true
  · simp [setSliceValue, ha] at h
  · cases value with
    | vstring s =>
        simp only [setSliceValue, ha] at h ⊢
        simp only [Bool.false_eq_true, if_false]
        exact setSliceFromString_err_unchanged rec dest e s (by simpa using h)
    | vslice e2 src =>
        simp only [setSliceValue, ha] at h ⊢
        simp only [Bool.false_eq_true, if_false]
        exact setSliceFromSlice_err_unchanged rec dest e src (by simpa using h)
    | vint w n =>
        by_cases he : (assignable (typeOf (GoVal.vint w n)) e) = true
        · simp [setSliceValue, ha, he] at h
        · simp [setSliceValue, ha, he]
    | vuint w n =>
        by_cases he : (assignable (typeOf (GoVal.vuint w n)) e) = true
        · simp [setSliceValue, ha, he] at h
        · simp [setSliceValue, ha, he]
    | vfloat w x =>
        by_cases he : (assignable (typeOf (GoVal.vfloat w x)) e) = true
        · simp [setSliceValue, ha, he] at h
        · simp [setSliceValue, ha, he]
    | vbool b =>
        by_cases he : (assignable (typeOf (GoVal.vbool b)) e) = true
        · simp [setSliceValue, ha, he] at h
        · simp [setSliceValue, ha, he]
    | vptrNil e2 =>
        by_cases he : (assignable (typeOf (GoVal.vptrNil e2)) e) = true
        · simp [setSliceValue, ha, he] at h
        · simp [setSliceValue, ha, he]
    | vptr e2 q =>
        by_cases he : (assignable (typeOf (GoVal.vptr e2 q)) e) = true
        · simp [setSliceValue, ha, he] at h
        · simp [setSliceValue, ha, he]
    | vstruct fs vs =>
        by_cases he : (assignable (typeOf (GoVal.vstruct fs vs)) e) = true
        · simp [setSliceValue, ha, he] at h
        · simp [setSliceValue, ha, he]
    | vmap e2 es =>
        by_cases he : (assignable (typeOf (GoVal.vmap e2 es)) e) = true
        · simp [setSliceValue, ha, he] at h
        · simp [setSliceValue, ha, he]
    | vnil =>
        by_cases he : (assignable (typeOf GoVal.vnil) e) = true
        · simp [setSliceValue, ha, he] at h
        · simp [setSliceValue, ha, he]

/-- C9: if the recursive coercion of any element fails - whether the source is
a comma-separated string or another sequence - the slice destination is left
completely unchanged: the result sequence is built in fresh storage and only
assigned after every element has coerced, so a failed multi-element conversion
never partially mutates the destination. -/
theorem C9_slice_failure_is_atomic :
    (∀ (rec : Rec) (dest : GoVal) (e : GoType) (s : String),
        (setSliceFromString rec dest e s).2.isSome = true →
        (setSliceFromString rec dest e s).1 = dest) ∧
    (∀ (rec : Rec) (dest : GoVal) (e : GoType) (src : ValList),
        (setSliceFromSlice rec dest e src).2.isSome = true →
        (setSliceFromSlice rec dest e src).1 = dest) ∧
    (∀ (n : Nat) (e : GoType) (xs : ValList) (value : GoVal),
        (setValueFuel (n + 1) (.vslice e xs) value).2.isSome = true →
        (setValueFuel (n + 1) (.vslice e xs) value).1 = .vslice e xs) := by
  refine ⟨setSliceFromString_err_unchanged, setSliceFromSlice_err_unchanged, ?_⟩
  intro n e xs value h
  simp only [setValueFuel, setValueAux] at h ⊢
  by_cases h0 : (value == GoVal.vnil) = true
  · simp [h0] at h
  · by_cases ha : (assignable (typeOf value) (typeOf (GoVal.vslice e xs))) = true
    · simp [h0, ha] at h
    · simp only [h0, ha, Bool.false_eq_true, if_false] at h ⊢
      exact setSliceValue_err_unchanged _ _ _ _ h

/-- Witness for C9 at a concrete failing input: coercing "1,x,3" into a
nonempty int-slice destination fails and leaves the destination as it was. -/
theorem C9_slice_failure_is_atomic_witness :
    (setValueFuel 2 (.vslice (.tint 64) (.cons (.vint 64 9) .nil)) (.vstring "1,x,3")).2.isSome = true ∧
    (setValueFuel 2 (.vslice (.tint 64) (.cons (.vint 64 9) .nil)) (.vstring "1,x,3")).1 =
      .vslice (.tint 64) (.cons (.vint 64 9) .nil) :=
  ⟨by decide,
   C9_slice_failure_is_atomic.2.2 1 (.tint 64) (.cons (.vint 64 9) .nil) (.vstring "1,x,3")
     (by decide)⟩

/-- C8: a string that does not parse under the destination numeric family's
textual grammar makes the engine fail with a parse error naming the attempted
kind and the offending text, and the destination's stored value after the
failed call is exactly what it was before. -/
theorem C8_parse_failure_names_kind_and_keeps_dest (n w : Nat) (oldI : Int) (oldU : Nat)
    (oldF : GoFloat) (s : String) :
    (goParseInt s = none →
      setValueFuel (n + 1) (.vint w oldI) (.vstring s) =
        (.vint w oldI, some (.parseErr "int" s))) ∧
    (goParseUint s = none →
      setValueFuel (n + 1) (.vuint w oldU) (.vstring s) =
        (.vuint w oldU, some (.parseErr "uint" s))) ∧
    (goParseFloat s = none →
      setValueFuel (n + 1) (.vfloat w oldF) (.vstring s) =
        (.vfloat w oldF, some (.parseErr "float" s))) := by
  refine ⟨fun h => ?_, fun h => ?_, fun h => ?_⟩ <;>
    simp [setValueFuel, setValueAux, setFromString, assignable, typeOf, beq_iff_eq, h]

/-- Witness for C8: "not a number" into int, uint and float destinations. -/
theorem C8_parse_failure_witness :
    goParseInt "not a number" = none ∧
    setValueFuel 1 (.vint 64 7) (.vstring "not a number") =
      (.vint 64 7, some (.parseErr "int" "not a number")) ∧
    setValueFuel 1 (.vuint 64 7) (.vstring "not a number") =
      (.vuint 64 7, some (.parseErr "uint" "not a number")) ∧
    setValueFuel 1 (.vfloat 64 (.fin ⟨3, 1⟩)) (.vstring "not a number") =
      (.vfloat 64 (.fin ⟨3, 1⟩), some (.parseErr "float" "not a number")) :=
  ⟨by decide,
   (C8_parse_failure_names_kind_and_keeps_dest 0 64 7 7 (.fin ⟨3, 1⟩) "not a number").1 (by decide),
   (C8_parse_failure_names_kind_and_keeps_dest 0 64 7 7 (.fin ⟨3, 1⟩) "not a number").2.1 (by decide),
   (C8_parse_failure_names_kind_and_keeps_dest 0 64 7 7 (.fin ⟨3, 1⟩) "not a number").2.2 (by decide)⟩

/-- C7: numeric coercion between any mix of the signed-integer,
unsigned-integer and floating-point families is a truncating cast with no
overflow check: float to integer truncates toward zero in both integer
families (42.9 coerces to 42), integer values reinterpret two's-complement
across signedness, integers convert exactly into float destinations, and
wider-to-narrower conversions truncate silently to the destination width,
from any source width. -/
theorem C7_numeric_casts_truncate :
    (∀ n : Nat, setValueFuel (n + 1) (.vint 64 0) (.vfloat 64 (.fin ⟨429, 10⟩)) =
      (.vint 64 42, none)) ∧
    (∀ (n w w2 : Nat) (old : Int) (q : GoRat),
        -(2 ^ 63) ≤ ratTrunc q → ratTrunc q < 2 ^ 63 →
        setValueFuel (n + 1) (.vint w old) (.vfloat w2 (.fin q)) =
          (.vint w (wrapInt w (ratTrunc q)), none)) ∧
    (∀ (n w : Nat) (old v : Int), w ≠ 64 →
        setValueFuel (n + 1) (.vint w old) (.vint 64 v) = (.vint w (wrapInt w v), none)) ∧
    (∀ (n w old u : Nat), w ≠ 64 →
        setValueFuel (n + 1) (.vuint w old) (.vuint 64 u) =
          (.vuint w (wrapUint w (u : Int)), none)) ∧
    (∀ n : Nat, setValueFuel (n + 1) (.vuint 64 0) (.vfloat 64 (.fin ⟨429, 10⟩)) =
      (.vuint 64 42, none)) ∧
    (∀ (n ws wd : Nat) (old : Int) (x : GoFloat),
        setValueFuel (n + 1) (.vint wd old) (.vfloat ws x) =
          (.vint wd (wrapInt wd (goFloatToInt64 x)), none)) ∧
    (∀ (n ws wd : Nat) (old : Int) (u : Nat),
        setValueFuel (n + 1) (.vint wd old) (.vuint ws u) =
          (.vint wd (wrapInt wd (toSigned64 u)), none)) ∧
    (∀ (n ws wd old : Nat) (v : Int),
        setValueFuel (n + 1) (.vuint wd old) (.vint ws v) =
          (.vuint wd (wrapUint wd v), none)) ∧
    (∀ (n ws wd old : Nat) (x : GoFloat),
        setValueFuel (n + 1) (.vuint wd old) (.vfloat ws x) =
          (.vuint wd (wrapUint wd (goFloatToUint64 x : Int)), none)) ∧
    (∀ (n ws wd : Nat) (oldf : GoFloat) (v : Int),
        setValueFuel (n + 1) (.vfloat wd oldf) (.vint ws v) =
          (.vfloat wd (.fin ⟨v, 1⟩), none)) ∧
    (∀ (n ws wd : Nat) (oldf : GoFloat) (u : Nat),
        setValueFuel (n + 1) (.vfloat wd oldf) (.vuint ws u) =
          (.vfloat wd (.fin ⟨(u : Int), 1⟩), none)) ∧
    (∀ (n ws wd : Nat) (old v : Int), ws ≠ wd →
        setValueFuel (n + 1) (.vint wd old) (.vint ws v) =
          (.vint wd (wrapInt wd v), none)) ∧
    (∀ (n ws wd old u : Nat), ws ≠ wd →
        setValueFuel (n + 1) (.vuint wd old) (.vuint ws u) =
          (.vuint wd (wrapUint wd (u : Int)), none)) ∧
    (∀ (ws wd : Nat) (old v : Int),
        setNumericValue (.vint wd old) (.vint ws v) = (.vint wd (wrapInt wd v), none)) ∧
    (∀ (ws wd old u : Nat),
        setNumericValue (.vuint wd old) (.vuint ws u) =
          (.vuint wd (wrapUint wd (u : Int)), none)) ∧
    (∀ (ws wd : Nat) (oldf x : GoFloat),
        setNumericValue (.vfloat wd oldf) (.vfloat ws x) = (.vfloat wd x, none)) ∧
    (∀ q : GoRat, -(2 ^ 63) ≤ ratTrunc q → ratTrunc q < 2 ^ 63 →
        goFloatToInt64 (.fin q) = ratTrunc q) ∧
    (∀ q : GoRat, 0 ≤ ratTrunc q → ratTrunc q < 2 ^ 64 →
        (goFloatToUint64 (.fin q) : Int) = ratTrunc q) := by
  refine ⟨?_, ?_, ?_, ?_, ?_, ?_, ?_, ?_, ?_, ?_, ?_, ?_, ?_, ?_, ?_, ?_, ?_, ?_⟩
  · intro n
    simp only [setValueFuel, setValueAux]
    norm_num [beq_iff_eq, assignable, typeOf, isNumericKind]
    decide
  · intro n w w2 old q h1 h2
    have hc : -9223372036854775808 ≤ ratTrunc q ∧ ratTrunc q < 9223372036854775808 := by
      constructor
      · norm_num at h1 ⊢; exact h1
      · norm_num at h2 ⊢; exact h2
    simp only [setValueFuel, setValueAux]
    norm_num [beq_iff_eq, assignable, typeOf, isNumericKind, setNumericValue]
    simp [goFloatToInt64, hc]
  · intro n w old v hw
    simp only [setValueFuel, setValueAux]
    norm_num [beq_iff_eq, assignable, typeOf, isNumericKind, setNumericValue, Ne.symm hw]
    simp
  · intro n w old u hw
    simp only [setValueFuel, setValueAux]
    norm_num [beq_iff_eq, assignable, typeOf, isNumericKind, setNumericValue, Ne.symm hw]
    simp
  · intro n
    simp only [setValueFuel, setValueAux]
    norm_num [beq_iff_eq, assignable, typeOf, isNumericKind]
    decide
  · intro n ws wd old x
    simp only [setValueFuel, setValueAux]
    norm_num [beq_iff_eq, assignable, typeOf, isNumericKind, setNumericValue]
    simp
  · intro n ws wd old u
    simp only [setValueFuel, setValueAux]
    norm_num [beq_iff_eq, assignable, typeOf, isNumericKind, setNumericValue]
    simp
  · intro n ws wd old v
    simp only [setValueFuel, setValueAux]
    norm_num [beq_iff_eq, assignable, typeOf, isNumericKind, setNumericValue]
    simp
  · intro n ws wd old x
    simp only [setValueFuel, setValueAux]
    norm_num [beq_iff_eq, assignable, typeOf, isNumericKind, setNumericValue]
    simp
  · intro n ws wd oldf v
    simp only [setValueFuel, setValueAux]
    norm_num [beq_iff_eq, assignable, typeOf, isNumericKind, setNumericValue]
    simp
  · intro n ws wd oldf u
    simp only [setValueFuel, setValueAux]
    norm_num [beq_iff_eq, assignable, typeOf, isNumericKind, setNumericValue]
    simp
  · intro n ws wd old v hws
    simp only [setValueFuel, setValueAux]
    norm_num [beq_iff_eq, assignable, typeOf, isNumericKind, setNumericValue, hws]
    simp
  · intro n ws wd old u hws
    simp only [setValueFuel, setValueAux]
    norm_num [beq_iff_eq, assignable, typeOf, isNumericKind, setNumericValue, hws]
    simp
  · intro ws wd old v
    simp [setNumericValue]
  · intro ws wd old u
    simp [setNumericValue]
  · intro ws wd oldf x
    simp [setNumericValue]
  · intro q h1 h2
    have hc : -9223372036854775808 ≤ ratTrunc q ∧ ratTrunc q < 9223372036854775808 := by
      constructor
      · norm_num at h1 ⊢; exact h1
      · norm_num at h2 ⊢; exact h2
    simp [goFloatToInt64, hc]
  · intro q h1 h2
    have hmod : ratTrunc q % (2 ^ 64 : Int) = ratTrunc q := Int.emod_eq_of_lt h1 h2
    simp only [goFloatToUint64, wrapUint]
    rw [hmod, Int.toNat_of_nonneg h1]

/-- Witness for C7: every hypothesis-bearing clause applied at concrete
inputs - 42.9 truncating to 42 into 32-bit signed and 16-bit unsigned
destinations, -42.9 truncating toward zero to -42, the all-ones unsigned
value reinterpreting as -1 and back, 300 narrowing to 44 in both integer
families from 16-bit and 64-bit sources, and exact integer-to-float
conversions. -/
theorem C7_numeric_casts_truncate_witness :
    setValueFuel 1 (.vint 32 5) (.vfloat 64 (.fin ⟨429, 10⟩)) = (.vint 32 42, none) ∧
    setValueFuel 1 (.vint 8 0) (.vint 64 300) = (.vint 8 44, none) ∧
    setValueFuel 1 (.vuint 8 0) (.vuint 64 300) = (.vuint 8 44, none) ∧
    setValueFuel 1 (.vint 64 0) (.vuint 64 18446744073709551615) = (.vint 64 (-1), none) ∧
    setValueFuel 1 (.vuint 64 0) (.vint 64 (-1)) = (.vuint 64 18446744073709551615, none) ∧
    setValueFuel 1 (.vuint 16 3) (.vfloat 64 (.fin ⟨429, 10⟩)) = (.vuint 16 42, none) ∧
    setValueFuel 1 (.vfloat 64 .nan) (.vint 32 7) = (.vfloat 64 (.fin ⟨7, 1⟩), none) ∧
    setValueFuel 1 (.vfloat 32 (.fin ⟨1, 2⟩)) (.vuint 8 9) = (.vfloat 32 (.fin ⟨9, 1⟩), none) ∧
    setNumericValue (.vfloat 32 (.fin ⟨0, 1⟩)) (.vfloat 64 .nan) = (.vfloat 32 .nan, none) ∧
    setValueFuel 1 (.vint 8 0) (.vint 16 300) = (.vint 8 44, none) ∧
    setValueFuel 1 (.vuint 8 0) (.vuint 16 300) = (.vuint 8 44, none) ∧
    setNumericValue (.vint 8 0) (.vint 16 300) = (.vint 8 44, none) ∧
    goFloatToInt64 (.fin ⟨429, 10⟩) = 42 ∧
    goFloatToInt64 (.fin ⟨-429, 10⟩) = -42 ∧
    (goFloatToUint64 (.fin ⟨429, 10⟩) : Int) = 42 := by
  obtain ⟨c1, c2, c3, c4, c5, c6, c7, c8, c9, c10, c11, c12, c13, c14, c15, c16, c17, c18⟩ :=
    C7_numeric_casts_truncate
  refine ⟨?_, ?_, ?_, ?_, ?_, ?_, ?_, ?_, ?_, ?_, ?_, ?_, ?_, ?_, ?_⟩
  · have h := c2 0 32 64 5 ⟨429, 10⟩ (by decide) (by decide)
    simpa using h
  · have h := c3 0 8 0 300 (by decide)
    simpa using h
  · have h := c4 0 8 0 300 (by decide)
    simpa using h
  · have h := c7 0 64 64 0 18446744073709551615
    rw [h]; decide
  · have h := c8 0 64 64 0 (-1)
    rw [h]; decide
  · have h := c9 0 64 16 3 (.fin ⟨429, 10⟩)
    rw [h]; decide
  · have h := c10 0 32 64 .nan 7
    rw [h]
  · have h := c11 0 8 32 (.fin ⟨1, 2⟩) 9
    rw [h]; decide
  · exact c16 64 32 (.fin ⟨0, 1⟩) .nan
  · have h := c12 0 16 8 0 300 (by decide)
    rw [h]; decide
  · have h := c13 0 16 8 0 300 (by decide)
    rw [h]; decide
  · have h := c14 16 8 0 300
    rw [h]; decide
  · have h := c17 ⟨429, 10⟩ (by decide) (by decide)
    rw [h]; decide
  · have h := c17 ⟨-429, 10⟩ (by decide) (by decide)
    rw [h]; decide
  · have h := c18 ⟨429, 10⟩ (by decide) (by decide)
    rw [h]; decide

/-- C6: for a sequence destination, the empty string coerces to an empty
sequence; a non-empty string is split on commas, each part is trimmed and
recursively coerced, in order, into a fresh element ("1,2,3" into an
integer-sequence destination yields [1,2,3]); any element failure surfaces as
an index-wrapped error; and coercing nil into any destination yields that
destination type's zero value. -/
theorem C6_string_to_slice_and_nil :
    (∀ (n : Nat) (e : GoType) (xs : ValList),
        setValueFuel (n + 1) (.vslice e xs) (.vstring "") = (.vslice e .nil, none)) ∧
    (∀ (rec : Rec) (e : GoType) (xs : ValList) (s : String), (s == "") = false →
        (∀ p ∈ (goSplitComma s).map goTrimSpace, (rec (zeroVal e) (.vstring p)).2 = none) →
        setSliceFromString rec (.vslice e xs) e s =
          (.vslice e (listToValList
            (((goSplitComma s).map goTrimSpace).map
              (fun p => (rec (zeroVal e) (.vstring p)).1))), none)) ∧
    (setValueFuel 2 (.vslice (.tint 64) .nil) (.vstring "1,2,3") =
      (.vslice (.tint 64) (.cons (.vint 64 1) (.cons (.vint 64 2) (.cons (.vint 64 3) .nil))),
        none)) ∧
    (∀ (rec : Rec) (dest : GoVal) (e : GoType) (s : String) (err : GoErr),
        (setSliceFromString rec dest e s).2 = some err → ∃ j e2, err = .sliceElem j e2) ∧
    (∀ (n : Nat) (dest : GoVal),
        setValueFuel (n + 1) dest .vnil = (zeroVal (typeOf dest), none)) := by
  refine ⟨?_, ?_, by decide, ?_, ?_⟩
  · intro n e xs
    simp only [setValueFuel, setValueAux]
    norm_num [beq_iff_eq, assignable, typeOf, setSliceValue, setSliceFromString]
    simp
  · intro rec e xs s hs hall
    simp only [setSliceFromString, hs, Bool.false_eq_true, if_false,
      buildSliceElems_ok rec e 0 _ hall]
  · intro rec dest e s err h
    by_cases hs : (s == "") = true
    · simp [setSliceFromString, hs] at h
    · cases hb : buildSliceElems rec e 0 ((goSplitComma s).map goTrimSpace) with
      | mk vs o =>
          cases o with
          | none => simp [setSliceFromString, hs, hb] at h
          | some e2 =>
              simp only [setSliceFromString, hs, hb, Bool.false_eq_true, if_false,
                Option.some.injEq] at h
              exact buildSliceElems_err_shape rec e 0 _ e2 (by rw [hb]) |>.imp
                (fun j hj => hj.imp (fun e3 he => h ▸ he))
  · intro n dest
    simp [setValueFuel, setValueAux]

/-- Witness for C6: the hypothesis-bearing clauses at concrete inputs:
" a , b " into a string slice, a failing "x" element, nil into an int
destination. -/
theorem C6_string_to_slice_and_nil_witness :
    setSliceFromString (setValueFuel 1) (.vslice .tstring .nil) .tstring " a , b " =
      (.vslice .tstring (.cons (.vstring "a") (.cons (.vstring "b") .nil)), none) ∧
    setValueFuel 1 (.vslice .tbool .nil) (.vstring "") = (.vslice .tbool .nil, none) ∧
    (∃ j e2, GoErr.sliceElem 1 (.parseErr "int" "x") = GoErr.sliceElem j e2) ∧
    setValueFuel 1 (.vint 64 5) .vnil = (.vint 64 0, none) :=
  ⟨by
      have h := C6_string_to_slice_and_nil.2.1 (setValueFuel 1) .tstring .nil " a , b "
        (by decide) (by decide)
      simpa using h,
   C6_string_to_slice_and_nil.1 0 .tbool .nil,
   C6_string_to_slice_and_nil.2.2.2.1 (setValueFuel 1) (.vslice (.tint 64) .nil) (.tint 64)
     "1,x,3" (.sliceElem 1 (.parseErr "int" "x")) (by decide),
   C6_string_to_slice_and_nil.2.2.2.2 0 (.vint 64 5)⟩

def appendF : FieldList → FieldList → FieldList
  | .nil, gs => gs
  | .cons f fs, gs => .cons f (appendF fs gs)

def appendV : ValList → ValList → ValList
  | .nil, ws => ws
  | .cons v vs, ws => .cons v (appendV vs ws)

/-- Insertion of a value at a position of a value list. -/
def insertV : Nat → GoVal → ValList → ValList
  | 0, u, vs => .cons u vs
  | _ + 1, u, .nil => .cons u .nil
  | n + 1, u, .cons v vs => .cons v (insertV n u vs)

/-- A field whose whole json tag is exactly "-" is left untouched by the
field loop, whatever the map holds. -/
theorem structFieldStep_dash (rec : Rec) (f : GoField) (x : GoVal) (es : EntryList)
    (hdash : tagGet f.tags "json" = "-") :
    structFieldStep rec f x es = (x, none) := by
  by_cases hp : (f.pkgPath ≠ "")
  · simp [structFieldStep, hp]
  · simp [structFieldStep, hp, hdash]

/-- Appending a cons is inserting at the join position. -/
theorem appendV_cons_eq_insertV : ∀ (vs1 : ValList) (x : GoVal) (vs2 : ValList),
    appendV vs1 (.cons x vs2) = insertV (lenV vs1) x (appendV vs1 vs2)
  | .nil, x, vs2 => by simp [appendV, insertV, lenV]
  | .cons w ws, x, vs2 => by
      simp [appendV, insertV, lenV, appendV_cons_eq_insertV ws x vs2]

/-- C10: during record construction from a string-keyed mapping, a destination
field whose json tag is exactly "-" is never looked up and never written: it
keeps its prior value whatever the mapping contains, and every other field is
treated exactly as if the "-" field were absent (its value spliced back into
the result at its position). -/
theorem C10_dash_field_is_inert (rec : Rec) (f : GoField) (x : GoVal) (es : EntryList)
    (fs2 : FieldList) (vs2 : ValList) (hdash : tagGet f.tags "json" = "-") :
    ∀ (fs1 : FieldList) (vs1 : ValList), lenF fs1 = lenV vs1 →
      setStructFromMap rec (appendF fs1 (.cons f fs2)) (appendV vs1 (.cons x vs2)) es =
        (insertV (lenV vs1) x (setStructFromMap rec (appendF fs1 fs2) (appendV vs1 vs2) es).1,
         (setStructFromMap rec (appendF fs1 fs2) (appendV vs1 vs2) es).2)
  | .nil, .nil, _ => by
      simp only [appendF, appendV, lenV, setStructFromMap,
        structFieldStep_dash rec f x es hdash, insertV]
  | .nil, .cons v1 vs1, hlen => by simp [lenF, lenV] at hlen
  | .cons f1 fs1, .nil, hlen => by simp [lenF, lenV] at hlen
  | .cons f1 fs1, .cons v1 vs1, hlen => by
      have hlen1 : lenF fs1 = lenV vs1 := by
        simp only [lenF, lenV] at hlen; omega
      have ihr := C10_dash_field_is_inert rec f x es fs2 vs2 hdash fs1 vs1 hlen1
      simp only [appendF, appendV, lenV, setStructFromMap]
      cases hstep : structFieldStep rec f1 v1 es with
      | mk xv o =>
          cases o with
          | none => simp [ihr, insertV]
          | some e2 => simp [insertV, appendV_cons_eq_insertV]

/-- Witness for C10 at a concrete struct and map: the "-" field keeps "keep"
even though the map holds an entry under its declared name, while its
neighbour is written. -/
theorem C10_dash_field_is_inert_witness :
    setStructFromMap (setValueFuel 1)
      (.cons (.mk "Secret" "" false [("json", "-")] .tstring)
        (.cons (.mk "Name" "" false [] .tstring) .nil))
      (.cons (.vstring "keep") (.cons (.vstring "") .nil))
      (.cons "Secret" (.vstring "stolen") (.cons "Name" (.vstring "Jane") .nil)) =
      (.cons (.vstring "keep") (.cons (.vstring "Jane") .nil), none) := by
  have h := C10_dash_field_is_inert (setValueFuel 1)
    (.mk "Secret" "" false [("json", "-")] .tstring) (.vstring "keep")
    (.cons "Secret" (.vstring "stolen") (.cons "Name" (.vstring "Jane") .nil))
    (.cons (.mk "Name" "" false [] .tstring) .nil)
    (.cons (.vstring "") .nil) (by decide) .nil .nil (by decide)
  simp only [appendF, appendV] at h
  rw [h]
  decide

def valListToList : ValList → List GoVal
  | .nil => []
  | .cons v tl => v :: valListToList tl

/-- Stated from the claim wording: the field's serialization-name annotation,
when one is present (a json tag with a nonempty first part). -/
def serAnnName (f : GoField) : Option String :=
  match goSplitComma (tagGet f.tags "json") with
  | p :: _ => if p = "" then none else some p
  | [] => none

/-- Stated from the amended claim wording: the mapping value a destination
field is matched with - by its serialization-name annotation if present,
otherwise by its declared name, with the declared name consulted as a
fallback when the annotation lookup misses and the annotation name differs
from the declared name. -/
def specFieldLookup (f : GoField) (es : EntryList) : Option GoVal :=
  match serAnnName f with
  | some nm =>
      (match lookupEntry es nm with
       | some v => some v
       | none => if nm ≠ f.name then lookupEntry es f.name else none)
  | none => lookupEntry es f.name

/-- Stated from the amended claim wording: field-by-field construction over
the zipped field/value list - skipped fields (unexported, json tag exactly
"-") and unmatched fields keep their values, matched fields receive the
recursive coercion's result, and the first failing matched field aborts with
the field name wrapped around the cause, later fields untouched. -/
def specStructFromMap (rec : Rec) (es : EntryList) :
    List (GoField × GoVal) → List GoVal × Option GoErr
  | [] => ([], none)
  | (f, x) :: rest =>
      if f.pkgPath ≠ "" ∨ tagGet f.tags "json" = "-" then
        let r := specStructFromMap rec es rest
        (x :: r.1, r.2)
      else
        match specFieldLookup f es with
        | none =>
            let r := specStructFromMap rec es rest
            (x :: r.1, r.2)
        | some mv =>
            match rec x mv with
            | (xv, none) =>
                let r := specStructFromMap rec es rest
                (xv :: r.1, r.2)
            | (xv, some e2) => (xv :: rest.map Prod.snd, some (.fieldErr f.name e2))

/-- The claim-side lookup coincides with the source's tag-name computation
plus declared-name fallback. -/
theorem specFieldLookup_eq_code (f : GoField) (es : EntryList) :
    specFieldLookup f es =
      (match lookupEntry es (structTagName f (tagGet f.tags "json")) with
       | some v => some v
       | none =>
           if structTagName f (tagGet f.tags "json") ≠ f.name then lookupEntry es f.name
           else none) := by
  unfold specFieldLookup serAnnName structTagName
  by_cases ht : tagGet f.tags "json" = ""
  · simp only [ht, ne_eq, not_true_eq_false, Bool.false_eq_true, if_false]
    cases hs : goSplitComma "" with
    | nil => cases hl : lookupEntry es f.name <;> simp [hl]
    | cons p ps =>
        have hpe : p = "" := by
          have h2 : goSplitComma "" = [""] := by decide
          rw [h2] at hs
          exact (List.cons_eq_cons.mp hs).1.symm
        simp only [hpe, if_pos rfl]
        cases hl : lookupEntry es f.name <;> simp [hl]
  · simp only [ne_eq, ht, not_false_eq_true, if_true]
    cases hs : goSplitComma (tagGet f.tags "json") with
    | nil => cases hl : lookupEntry es f.name <;> simp [hl]
    | cons p ps =>
        by_cases hp : p = ""
        · simp only [hp, if_pos rfl, ite_self]
          cases hl : lookupEntry es f.name <;> simp [hl]
        · simp [hp]

/-- One field of the source loop behaves exactly as the amended claim
describes: skip, or lookup-and-coerce with field-name-wrapped failure. -/
theorem structFieldStep_eq_spec (rec : Rec) (f : GoField) (x : GoVal) (es : EntryList) :
    structFieldStep rec f x es =
      (if f.pkgPath ≠ "" ∨ tagGet f.tags "json" = "-" then (x, none)
       else
         match specFieldLookup f es with
         | none => (x, none)
         | some mv =>
             match rec x mv with
             | (xv, none) => (xv, none)
             | (xv, some e2) => (xv, some (.fieldErr f.name e2))) := by
  by_cases hp : f.pkgPath = ""
  · by_cases hd : tagGet f.tags "json" = "-"
    · simp [structFieldStep, hp, hd]
    · simp only [structFieldStep, hp, ne_eq, not_true_eq_false, Bool.false_eq_true, if_false,
        beq_iff_eq, hd, false_or, specFieldLookup_eq_code]
  · simp [structFieldStep, hp]

/-- Zipping a struct's fields with its values and projecting the values back
is the identity when lengths agree. -/
theorem zip_snd_eq : ∀ (fs : FieldList) (xs : ValList), lenF fs = lenV xs →
    listToValList (List.map Prod.snd (zipFields fs xs)) = xs
  | .nil, .nil, _ => by simp [zipFields, listToValList]
  | .nil, .cons _ _, h => by simp [lenF, lenV] at h
  | .cons _ _, .nil, h => by simp [lenF, lenV] at h
  | .cons f fs, .cons x xs, h => by
      have h1 : lenF fs = lenV xs := by simp only [lenF, lenV] at h; omega
      simp [zipFields, listToValList, zip_snd_eq fs xs h1]

/-- The source's field loop coincides with the amended claim's field-by-field
description on every struct shape and every map. -/
theorem setStructFromMap_eq_spec (rec : Rec) (es : EntryList) :
    ∀ (fs : FieldList) (vs : ValList), lenF fs = lenV vs →
      setStructFromMap rec fs vs es =
        (listToValList (specStructFromMap rec es (zipFields fs vs)).1,
         (specStructFromMap rec es (zipFields fs vs)).2)
  | .nil, .nil, _ => by simp [setStructFromMap, zipFields, specStructFromMap, listToValList]
  | .nil, .cons _ _, h => by simp [lenF, lenV] at h
  | .cons _ _, .nil, h => by simp [lenF, lenV] at h
  | .cons f fs, .cons x xs, h => by
      have h1 : lenF fs = lenV xs := by simp only [lenF, lenV] at h; omega
      have ihr := setStructFromMap_eq_spec rec es fs xs h1
      simp only [setStructFromMap, zipFields, specStructFromMap, structFieldStep_eq_spec]
      by_cases hskip : f.pkgPath ≠ "" ∨ tagGet f.tags "json" = "-"
      · simp [hskip, ihr, listToValList]
      · simp only [hskip, if_false]
        cases hlk : specFieldLookup f es with
        | none => simp [ihr, listToValList]
        | some mv =>
            cases hrec : rec x mv with
            | mk xv o =>
                cases o with
                | none => simp [ihr, listToValList, hrec]
                | some e2 => simp [listToValList, zip_snd_eq fs xs h1, hrec]

/-- C5 (amended): setStructFromMap constructs the record exactly as the
amended claim describes - per-field annotation-then-declared-name lookup with
declared-name fallback, unmatched and skipped fields retain their values,
first matched-field coercion failure aborts wrapped with the field name - and
the mapping (name John, age 30.0) coerced into a two-field record
(name string, age int, both looked up by declared name) yields
(John, 30) with the float truncated into the int field. -/
theorem C5_struct_from_map_follows_amended_lookup :
    (∀ (rec : Rec) (es : EntryList) (fs : FieldList) (vs : ValList), lenF fs = lenV vs →
      setStructFromMap rec fs vs es =
        (listToValList (specStructFromMap rec es (zipFields fs vs)).1,
         (specStructFromMap rec es (zipFields fs vs)).2)) ∧
    setValueFuel 2
      (.vstruct (.cons (.mk "name" "" false [] .tstring)
          (.cons (.mk "age" "" false [] (.tint 64)) .nil))
        (.cons (.vstring "") (.cons (.vint 64 0) .nil)))
      (.vmap .tiface (.cons "name" (.vstring "John")
        (.cons "age" (.vfloat 64 (.fin ⟨30, 1⟩)) .nil))) =
      (.vstruct (.cons (.mk "name" "" false [] .tstring)
          (.cons (.mk "age" "" false [] (.tint 64)) .nil))
        (.cons (.vstring "John") (.cons (.vint 64 30) .nil)), none) :=
  ⟨fun rec es fs vs h => setStructFromMap_eq_spec rec es fs vs h, by decide⟩

/-- Witness for C5 at a concrete record, map and budget. -/
theorem C5_struct_from_map_follows_amended_lookup_witness :
    setStructFromMap (setValueFuel 1)
      (.cons (.mk "Age" "" false [("json", "age")] (.tint 64)) .nil)
      (.cons (.vint 64 0) .nil)
      (.cons "Age" (.vint 64 30) .nil) =
      (listToValList (specStructFromMap (setValueFuel 1)
          (.cons "Age" (.vint 64 30) .nil)
          (zipFields (.cons (.mk "Age" "" false [("json", "age")] (.tint 64)) .nil)
            (.cons (.vint 64 0) .nil))).1,
       (specStructFromMap (setValueFuel 1)
          (.cons "Age" (.vint 64 30) .nil)
          (zipFields (.cons (.mk "Age" "" false [("json", "age")] (.tint 64)) .nil)
            (.cons (.vint 64 0) .nil))).2) :=
  C5_struct_from_map_follows_amended_lookup.1 (setValueFuel 1)
    (.cons "Age" (.vint 64 30) .nil)
    (.cons (.mk "Age" "" false [("json", "age")] (.tint 64)) .nil)
    (.cons (.vint 64 0) .nil) (by decide)

/-- Counterexample to C5 as frozen: the destination field Age carries the
serialization annotation "age", the mapping holds no entry under "age" - so
under the claim's lookup rule the field has no match and must stay at its
zero value - yet the source falls back to the declared name "Age", finds 30,
and writes it. -/
theorem C5_counterexample_declared_name_fallback :
    serAnnName (GoField.mk "Age" "" false [("json", "age")] (.tint 64)) = some "age" ∧
    lookupEntry (.cons "Age" (.vint 64 30) .nil) "age" = none ∧
    setStructFromMap (setValueFuel 1)
      (.cons (.mk "Age" "" false [("json", "age")] (.tint 64)) .nil)
      (.cons (.vint 64 0) .nil)
      (.cons "Age" (.vint 64 30) .nil) =
      (.cons (.vint 64 30) .nil, none) ∧
    GoVal.vint 64 30 ≠ GoVal.vint 64 0 := by decide

/-- Counterexample to C1 as frozen: a field whose raw annotation is the single
name "omitempty" - so its comma-separated option list is empty and does not
contain the token "omitempty", and neither the "-" rule nor the empty-name
rule applies - is nevertheless skipped by the walker when its value is zero,
because the source tests substring containment on the whole raw tag. -/
theorem C1_counterexample_substring_match :
    (parseTag "query" "omitempty" (.vint 64 0)).Name = "omitempty" ∧
    (parseTag "query" "omitempty" (.vint 64 0)).Options = [] ∧
    "omitempty" ∉ (parseTag "query" "omitempty" (.vint 64 0)).Options ∧
    ("omitempty" : String) ≠ "-" ∧ ("omitempty" : String) ≠ "" ∧
    isZero (GoVal.vint 64 0) = true ∧
    getTagsNP 2 "query"
      (.vstruct (.cons (.mk "A" "" false [("query", "omitempty")] (.tint 64)) .nil)
        (.cons (.vint 64 0) .nil)) = [] := by decide

/-- C1 (amended): the omitempty rule skips an exported, non-embedded field
(no entry, no recursion into it) iff the raw annotation string contains
"omitempty" as a substring - not necessarily as an exact option token - and
the resolved value is the zero value for its type; when that conjunction
fails (and the annotation is neither "-" nor empty) the field's entry is
emitted, followed by its nested walk if the resolved value is a struct. -/
theorem C1_omitempty_skip_is_substring_based :
    ∀ (rec : GoVal → List CTag) (key : String) (f : GoField) (x : GoVal),
      f.pkgPath = "" → f.anon = false →
      ((goContains (tagGet f.tags key) "omitempty" && isZero (derefPtrs x)) = true →
        fieldStep rec key f x = ([], [])) ∧
      (tagGet f.tags key ≠ "-" →
       (goContains (tagGet f.tags key) "omitempty" && isZero (derefPtrs x)) = false →
       tagGet f.tags key ≠ "" →
        fieldStep rec key f x =
          (parseTag key (tagGet f.tags key) (derefPtrs x) ::
            (if isStructVal (derefPtrs x) = true then rec (derefPtrs x) else []), [])) := by
  intro rec key f x hp hanon
  constructor
  · intro hcz
    simp [fieldStep, hp, hanon, hcz]
  · intro hd hcz hne
    simp [fieldStep, hp, hanon, hcz, hd, hne]

/-- Witness for C1 (amended): a field tagged "a,omitemptyx" (option list holds
only "omitemptyx") with zero value is skipped; the same field with value 7 is
emitted. -/
theorem C1_omitempty_skip_is_substring_based_witness :
    fieldStep (fun _ => []) "q" (.mk "A" "" false [("q", "a,omitemptyx")] (.tint 64))
      (.vint 64 0) = ([], []) ∧
    fieldStep (fun _ => []) "q" (.mk "A" "" false [("q", "a,omitemptyx")] (.tint 64))
      (.vint 64 7) =
      ([{ Key := "q", Name := "a", Options := ["omitemptyx"], Field := .vint 64 7 }], []) :=
  ⟨(C1_omitempty_skip_is_substring_based (fun _ => []) "q"
      (.mk "A" "" false [("q", "a,omitemptyx")] (.tint 64)) (.vint 64 0) rfl rfl).1 (by decide),
   by
    have h := (C1_omitempty_skip_is_substring_based (fun _ => []) "q"
      (.mk "A" "" false [("q", "a,omitemptyx")] (.tint 64)) (.vint 64 7) rfl rfl).2
      (by decide) (by decide) (by decide)
    simpa using h⟩

/-- Counterexample to C2 as frozen: an embedded field annotated "-" whose
sub-record has a tagged field with a non-empty value produces an entirely
empty extraction - the sub-record's tagged fields do not appear - although
walking the sub-record alone does produce its entry. -/
theorem C2_counterexample_dash_embedded_not_recursed :
    getTagsNP 3 "query"
      (.vstruct (.cons (.mk "Embedded" "" true [("query", "-")]
            (.tstruct (.cons (.mk "X" "" false [("query", "x")] .tstring) .nil))) .nil)
        (.cons (.vstruct (.cons (.mk "X" "" false [("query", "x")] .tstring) .nil)
            (.cons (.vstring "v") .nil)) .nil)) = [] ∧
    getTagsNP 2 "query"
      (.vstruct (.cons (.mk "X" "" false [("query", "x")] .tstring) .nil)
        (.cons (.vstring "v") .nil)) =
      [{ Key := "query", Name := "x", Options := [], Field := .vstring "v" }] := by decide

/-- C2 (amended): an embedded (anonymous) field whose raw annotation is "-"
contributes nothing at all: no entry is emitted and the embedded sub-record
is not queued for recursion, because the "-" skip fires before the
anonymous-composition branch; this holds in the processor model and in the
nil-processor specialisation alike. -/
theorem C2_dash_embedded_skips_recursion :
    ∀ (recP : GoVal → Bool → Except GoErr (List CTag × GoVal)) (p : Option ProcessorM)
      (key : String) (addr : Bool) (f : GoField) (x : GoVal)
      (recNP : GoVal → List CTag),
      f.anon = true → tagGet f.tags key = "-" →
      fieldStepP recP p key addr f x = .ok ([], x, none) ∧
      fieldStep recNP key f x = ([], []) := by
  intro recP p key addr f x recNP ha hd
  constructor
  · simp [fieldStepP, ha, hd]
  · simp [fieldStep, ha, hd]

/-- Witness for C2 (amended): the concrete embedded field of the
counterexample, in both models. -/
theorem C2_dash_embedded_skips_recursion_witness :
    fieldStepP (fun w _ => .ok ([], w)) none "query" true
      (.mk "Embedded" "" true [("query", "-")]
        (.tstruct (.cons (.mk "X" "" false [("query", "x")] .tstring) .nil)))
      (.vstruct (.cons (.mk "X" "" false [("query", "x")] .tstring) .nil)
        (.cons (.vstring "v") .nil)) =
      .ok ([], .vstruct (.cons (.mk "X" "" false [("query", "x")] .tstring) .nil)
        (.cons (.vstring "v") .nil), none) ∧
    fieldStep (fun _ => []) "query"
      (.mk "Embedded" "" true [("query", "-")]
        (.tstruct (.cons (.mk "X" "" false [("query", "x")] .tstring) .nil)))
      (.vstruct (.cons (.mk "X" "" false [("query", "x")] .tstring) .nil)
        (.cons (.vstring "v") .nil)) = ([], []) :=
  C2_dash_embedded_skips_recursion (fun w _ => .ok ([], w)) none "query" true
    (.mk "Embedded" "" true [("query", "-")]
      (.tstruct (.cons (.mk "X" "" false [("query", "x")] .tstring) .nil)))
    (.vstruct (.cons (.mk "X" "" false [("query", "x")] .tstring) .nil)
      (.cons (.vstring "v") .nil))
    (fun _ => []) rfl rfl

/-- Written from claim C4: the block of entries a single non-embedded field
contributes - its own entry first, then the entries of its nested-record walk
immediately after - and nothing for skipped or embedded fields. -/
def specOwnBlock (sub : GoVal → List CTag) (key : String) (f : GoField) (x : GoVal) :
    List CTag :=
  if f.pkgPath ≠ "" && !f.anon then []
  else if f.anon then []
  else
    let fv := derefPtrs x
    let tagStr := tagGet f.tags key
    if tagStr == "-" || (goContains tagStr "omitempty" && isZero fv) then []
    else
      (if tagStr ≠ "" then [parseTag key tagStr fv] else []) ++
      (if isStructVal fv then sub fv else [])

/-- Written from claim C4: the sub-record an embedded field contributes to
the trailing embedded pass, when it is retained. -/
def specEmbValue (key : String) (f : GoField) (x : GoVal) : Option GoVal :=
  if !f.anon then none
  else
    let fv := derefPtrs x
    let tagStr := tagGet f.tags key
    if tagStr == "-" || (goContains tagStr "omitempty" && isZero fv) then none
    else if isStructVal fv then some fv else none

/-- Written from claim C4: extraction in field declaration order, each
non-embedded field's own entry followed immediately by its nested-record
entries, with all embedded sub-records' entries appended after the outer
record's own top-level entries, in embedding declaration order. -/
def specWalk : Nat → String → GoVal → List CTag
  | 0, _, _ => []
  | n + 1, key, v =>
      match v with
      | .vstruct fs vs =>
          let pairs := zipFields fs vs
          (pairs.map (fun fx => specOwnBlock (specWalk n key) key fx.1 fx.2)).flatten ++
          ((pairs.filterMap (fun fx => specEmbValue key fx.1 fx.2)).map (specWalk n key)).flatten
      | _ => []

/-- One loop iteration of the source walker decomposes into the claim-side
own-entry block and embedded contribution. -/
theorem fieldStep_decompose (rec : GoVal → List CTag) (key : String) (f : GoField)
    (x : GoVal) :
    fieldStep rec key f x = (specOwnBlock rec key f x, (specEmbValue key f x).toList) := by
  by_cases hu : (f.pkgPath ≠ "" && !f.anon) = true
  · have hanon : f.anon = false := by
      cases h : f.anon
      · rfl
      · rw [h] at hu; simp at hu
    simp [fieldStep, specOwnBlock, specEmbValue, hu, hanon]
    rw [hanon] at hu
    simp only [Bool.not_false, Bool.and_true, decide_eq_true_eq] at hu
    simp [hu]
  · by_cases hskip : (tagGet f.tags key == "-" ||
        (goContains (tagGet f.tags key) "omitempty" && isZero (derefPtrs x))) = true
    · cases ha : f.anon
      · simp [fieldStep, specOwnBlock, specEmbValue, hu, hskip, ha]
      · simp [fieldStep, specOwnBlock, specEmbValue, hu, hskip, ha]
    · cases ha : f.anon
      · simp [fieldStep, specOwnBlock, specEmbValue, hu, hskip, ha]
        by_cases hpp : f.pkgPath = "" <;> simp [hpp]
      · cases hsv : isStructVal (derefPtrs x)
        · simp [fieldStep, specOwnBlock, specEmbValue, hu, hskip, ha, hsv]
        · simp [fieldStep, specOwnBlock, specEmbValue, hu, hskip, ha, hsv]

/-- The source's field loop is the concatenation of the claim-side own-entry
blocks in declaration order, with the embedded queue equal to the claim-side
retained embedded sub-records in declaration order. -/
theorem fieldsWalk_eq (rec : GoVal → List CTag) (key : String)
    (pairs : List (GoField × GoVal)) :
    fieldsWalk rec key pairs =
      ((pairs.map (fun fx => specOwnBlock rec key fx.1 fx.2)).flatten,
       pairs.filterMap (fun fx => specEmbValue key fx.1 fx.2)) := by
  induction pairs with
  | nil => simp [fieldsWalk]
  | cons fx rest ih =>
      obtain ⟨f, x⟩ := fx
      simp only [fieldsWalk, fieldStep_decompose, ih, List.map_cons, List.flatten_cons,
        List.filterMap_cons]
      cases he : specEmbValue key f x <;> simp

/-- C4: the extracted sequence's order is deterministic and equals field
declaration order: each non-embedded field's own entry comes first, the
entries from recursing into its nested record are inserted immediately after
it, and the entries of all embedded sub-records are appended after all of the
outer record's own top-level entries, in embedding declaration order - stated
as equality between the source walker and the order description written from
the claim. -/
theorem C4_order_is_declaration_order_with_embedded_last :
    ∀ (n : Nat) (key : String) (v : GoVal), getTagsNP n key v = specWalk n key v := by
  intro n
  induction n with
  | zero => intro key v; rfl
  | succ n ih =>
      intro key v
      cases v with
      | vstruct fs vs =>
          have hrec : getTagsNP n key = specWalk n key := funext (ih key)
          simp only [getTagsNP, specWalk, fieldsWalk_eq, hrec]
      | vint w m => rfl
      | vuint w m => rfl
      | vfloat w xx => rfl
      | vbool b => rfl
      | vstring s => rfl
      | vptrNil e => rfl
      | vptr e q => rfl
      | vslice e xs => rfl
      | vmap e es => rfl
      | vnil => rfl

/-- A processor that rewrites the entry's value holder but leaves the field
storage alone - observable only on the non-addressable path. -/
def hackProc : ProcessorM :=
  fun fld tag => .ok (fld, { tag with Field := .vstring "HACK" })

/-- Counterexample to C3 as frozen: when the record is passed by value the
original field storage is not settable, so the walker hands the processor the
snapshot value instead of a handle and does not re-read the field afterwards;
a processor that rewrites the entry's value leaves the entry holding "HACK"
while the field still stores "orig". -/
theorem C3_counterexample_value_record_no_reread :
    GetTagsAndProcessModel 2 "q"
      (.vstruct (.cons (.mk "A" "" false [("q", "a")] .tstring) .nil)
        (.cons (.vstring "orig") .nil))
      (some hackProc) =
      .ok ([{ Key := "q", Name := "a", Options := [], Field := .vstring "HACK" }],
        .vstruct (.cons (.mk "A" "" false [("q", "a")] .tstring) .nil)
          (.cons (.vstring "orig") .nil)) ∧
    GoVal.vstring "HACK" ≠ GoVal.vstring "orig" := by decide

/-- C3 (amended): for a retained, non-embedded field, when the field storage
is settable (record reached through a pointer) the processor is invoked with
the original field value as a mutable handle and, after it succeeds, the
entry's value is re-read from the (possibly mutated) storage; when the
storage is not settable (record passed by value) the processor receives the
entry's snapshot value, nothing is written back, and the entry keeps whatever
the processor left in it - no re-read occurs. -/
theorem C3_processor_reread_only_when_settable :
    ∀ (rec : GoVal → Bool → Except GoErr (List CTag × GoVal)) (proc : ProcessorM)
      (key : String) (f : GoField) (x nf : GoVal) (nt : CTag),
      f.pkgPath = "" → f.anon = false →
      tagGet f.tags key ≠ "-" →
      (goContains (tagGet f.tags key) "omitempty" && isZero (derefPtrs x)) = false →
      tagGet f.tags key ≠ "" →
      (proc x (parseTag key (tagGet f.tags key) (derefPtrs x)) = .ok (nf, nt) →
        isStructVal (derefPtrs nf) = false →
        fieldStepP rec (some proc) key true f x =
          .ok ([{ nt with Field := nf }], nf, none)) ∧
      (proc (parseTag key (tagGet f.tags key) (derefPtrs x)).Field
          (parseTag key (tagGet f.tags key) (derefPtrs x)) = .ok (nf, nt) →
        isStructVal (derefPtrs x) = false →
        fieldStepP rec (some proc) key false f x = .ok ([nt], x, none)) := by
  intro rec proc key f x nf nt hp hanon hd hcz hne
  constructor
  · intro hproc hns
    simp [fieldStepP, hp, hanon, hd, hcz, hne, hproc, hns, bind, Except.bind]
  · intro hproc hns
    simp [fieldStepP, hp, hanon, hd, hcz, hne, hproc, hns, bind, Except.bind]

/-- Witness for C3 (amended): a concrete processor that renames the entry and
writes "NEW" through the handle - on the settable path the entry's value is
the re-read "NEW"; with hackProc on the non-settable path the entry keeps the
processor's "HACK" and the field keeps "orig". -/
theorem C3_processor_reread_only_when_settable_witness :
    fieldStepP (fun w _ => .ok ([], w)) (some (fun _ tag => .ok (.vstring "NEW", tag)))
      "q" true (.mk "A" "" false [("q", "a")] .tstring) (.vstring "orig") =
      .ok ([{ Key := "q", Name := "a", Options := [], Field := .vstring "NEW" }],
        .vstring "NEW", none) ∧
    fieldStepP (fun w _ => .ok ([], w)) (some hackProc)
      "q" false (.mk "A" "" false [("q", "a")] .tstring) (.vstring "orig") =
      .ok ([{ Key := "q", Name := "a", Options := [], Field := .vstring "HACK" }],
        .vstring "orig", none) :=
  ⟨by
      have h := (C3_processor_reread_only_when_settable (fun w _ => .ok ([], w))
        (fun _ tag => .ok (.vstring "NEW", tag)) "q"
        (.mk "A" "" false [("q", "a")] .tstring) (.vstring "orig") (.vstring "NEW")
        { Key := "q", Name := "a", Options := [], Field := .vstring "orig" }
        rfl rfl (by decide) (by decide) (by decide)).1 (by decide) (by decide)
      simpa using h,
   by
      have h := (C3_processor_reread_only_when_settable (fun w _ => .ok ([], w))
        hackProc "q"
        (.mk "A" "" false [("q", "a")] .tstring) (.vstring "orig") (.vstring "orig")
        { Key := "q", Name := "a", Options := [], Field := .vstring "HACK" }
        rfl rfl (by decide) (by decide) (by decide)).2 (by decide) (by decide)
      simpa using h⟩
